import Mathlib

/-!
# Loan-money ledger engine: shallow embedding and verification

This file embeds the loan/transaction ledger consistency engine of the
`loan-money` Go service (handlers `CreateTransaction`, `UpdateTransaction`,
`DeleteTransaction`, `UpdateLoan`, `DeleteLoan`, `GetLoan`, `GetLoans`) and
proves or refutes the specification claims about it.

Modelling conventions:
* UUID identifiers are modelled as `Nat`.
* `float64` currency amounts are modelled as exact rationals `ℚ`; every
  comparison in the source is a plain order comparison, which the embedding
  mirrors exactly.
* SQL timestamps are modelled as `Nat`; `deleted_at IS NULL` becomes
  `deletedAt = none`.
* Date-string parsing (`time.Parse`) is embedded as already-parsed `Nat`
  dates in the request records; the parse-failure branches of the handlers
  return 400 before any store access and play no role in any claim.
* The SQL store (tables `loans` and `transactions`) is a `Store` record of
  two lists; each SQL statement of the source is translated clause by
  clause into a list operation.
* `database/sql` transactions (`Begin`/`Exec`/`Commit` with a deferred
  `Rollback`) are modelled by staging writes on a copy of the store and
  returning the original store on every failing path; injected failure
  flags (`DbFlags`) model storage-layer errors of the individual calls.
-/

namespace LoanMoney

/-- Loan status column: the source stores the strings
`"active" | "completed" | "overdue"`. -/
inductive LoanStatus where
  | active
  | completed
  | overdue
deriving DecidableEq, Repr

/-- A row of the `loans` table (`internal/models.Loan`). -/
structure Loan where
  id : Nat
  userId : Nat
  borrowerName : String
  amount : ℚ
  status : LoanStatus
  loanDate : Nat
  dueDate : Option Nat
  createdAt : Nat
  updatedAt : Nat
  deletedAt : Option Nat
deriving DecidableEq, Repr

/-- A row of the `transactions` table (`internal/models.Transaction`). -/
structure Txn where
  id : Nat
  loanId : Nat
  amount : ℚ
  remark : Option String
  paymentDate : Option Nat
  createdAt : Nat
  updatedAt : Nat
  deletedAt : Option Nat
deriving DecidableEq, Repr

/-- The two ledger tables of the backing store. -/
structure Store where
  loans : List Loan
  txns : List Txn
deriving DecidableEq, Repr

/-- `models.TransactionRequest`: the JSON body of create/update transaction.
`loanId = none` models the empty `loan_id` string rejected by validation. -/
structure TransactionRequest where
  loanId : Option Nat
  amount : ℚ
  remark : Option String
  paymentDate : Option Nat
deriving DecidableEq, Repr

/-- `models.LoanRequest`: the JSON body of create/update loan. -/
structure LoanRequest where
  borrowerName : String
  amount : ℚ
  loanDate : Nat
  dueDate : Option Nat
deriving DecidableEq, Repr

/-- Injected storage-failure flags for the `database/sql` calls inside one
handler: `Begin`, the first `Exec`, the second `Exec` (loan-status or
loan-delete write), and `Commit`. -/
structure DbFlags where
  beginFail : Bool
  exec1Fail : Bool
  exec2Fail : Bool
  commitFail : Bool
deriving DecidableEq, Repr

/-- All storage calls succeed. -/
def DbFlags.ok : DbFlags := ⟨false, false, false, false⟩

/-! ## Query helpers (clause-by-clause translations of the SQL) -/

/-- First list element satisfying `p` (the first row returned by a SQL
query scanned with `QueryRow`). -/
def firstSuch {α : Type} (p : α → Prop) [DecidablePred p] : List α → Option α
  | [] => none
  | x :: xs => if p x then some x else firstSuch p xs

/-- The list elements satisfying `p` (the rows kept by a SQL `WHERE`
clause, respectively not removed by a SQL `DELETE`). -/
def filterP {α : Type} (p : α → Prop) [DecidablePred p] : List α → List α
  | [] => []
  | x :: xs => if p x then x :: filterP p xs else filterP p xs

/-- Contribution of one transaction row to
`COALESCE(SUM(t.amount), 0) ... WHERE t.loan_id = lid AND t.deleted_at IS NULL`. -/
def paidContrib (lid : Nat) (t : Txn) : ℚ :=
  if t.loanId = lid ∧ t.deletedAt = none then t.amount else 0

/-- `SELECT COALESCE(SUM(t.amount), 0) FROM transactions t
WHERE t.loan_id = lid AND t.deleted_at IS NULL`: the paid total used by
every ledger mutation. -/
def totalPaid (s : Store) (lid : Nat) : ℚ :=
  (s.txns.map (paidContrib lid)).sum

/-- The paid total excluding the rows with id `txid`
(`... AND t2.id != t.id` in `UpdateTransaction`). -/
def totalPaidExcl (s : Store) (lid txid : Nat) : ℚ :=
  (s.txns.map (fun t =>
    if t.loanId = lid ∧ t.deletedAt = none ∧ t.id ≠ txid then t.amount else 0)).sum

/-- The paid total as computed by the loan read endpoints `GetLoans` and
`GetLoan`: their `LEFT JOIN transactions t ON l.id = t.loan_id` has NO
`t.deleted_at IS NULL` condition, so soft-deleted rows are included. -/
def totalPaidAll (s : Store) (lid : Nat) : ℚ :=
  (s.txns.map (fun t => if t.loanId = lid then t.amount else 0)).sum

/-- `SELECT ... FROM loans l WHERE l.id = $1 AND l.user_id = $2 AND
l.deleted_at IS NULL` (ownership check of `CreateTransaction`). -/
def findLoanOwned (s : Store) (lid uid : Nat) : Option Loan :=
  firstSuch (fun l => l.id = lid ∧ l.userId = uid ∧ l.deletedAt = none) s.loans

/-- `SELECT ... FROM loans WHERE id = $1 AND user_id = $2` (ownership check
of `UpdateLoan` / `DeleteLoan` / `GetLoan`: no deleted filter). -/
def findLoanOfUser (s : Store) (lid uid : Nat) : Option Loan :=
  firstSuch (fun l => l.id = lid ∧ l.userId = uid) s.loans

/-- `SELECT ... FROM loans WHERE id = $1` (the response-payload join). -/
def findLoanById (s : Store) (lid : Nat) : Option Loan :=
  firstSuch (fun l => l.id = lid) s.loans

/-- The `transactions t INNER JOIN loans l ON t.loan_id = l.id WHERE
t.id = $1 AND l.user_id = $2 AND t.deleted_at IS NULL` row used by
`UpdateTransaction` and `DeleteTransaction`: the live transaction together
with its owning loan. -/
def findTxnOwned (s : Store) (txid uid : Nat) : Option (Txn × Loan) :=
  match firstSuch (fun t => t.id = txid ∧ t.deletedAt = none ∧
      (firstSuch (fun l => l.id = t.loanId ∧ l.userId = uid) s.loans).isSome) s.txns with
  | none => none
  | some t =>
    match firstSuch (fun l => l.id = t.loanId ∧ l.userId = uid) s.loans with
    | none => none
    | some l => some (t, l)

/-- The post-commit response fetch `SELECT ... FROM transactions t INNER
JOIN loans l ON t.loan_id = l.id WHERE t.id = $1` (no user or deleted
filter in the source). -/
def fetchTxnJoin (s : Store) (txid : Nat) : Option (Txn × String × ℚ) :=
  match firstSuch (fun t => t.id = txid) s.txns with
  | none => none
  | some t =>
    match findLoanById s t.loanId with
    | none => none
    | some l => some (t, l.borrowerName, l.amount)

/-! ## Row-update helpers (the UPDATE statements) -/

/-- `UPDATE loans SET status = 'completed', updated_at = $1 WHERE id = $2`,
applied to one row. -/
def setCompleted (lid now : Nat) (l : Loan) : Loan :=
  if l.id = lid then { l with status := .completed, updatedAt := now } else l

/-- `UPDATE loans SET status = 'active', updated_at = $1 WHERE id = $2 AND
status = 'completed'`, applied to one row. -/
def revertIfCompleted (lid now : Nat) (l : Loan) : Loan :=
  if l.id = lid ∧ l.status = .completed then
    { l with status := .active, updatedAt := now } else l

/-- `UPDATE transactions SET deleted_at = $1 WHERE id = $2`, applied to one
row. -/
def markDeleted (txid now : Nat) (t : Txn) : Txn :=
  if t.id = txid then { t with deletedAt := some now } else t

/-- `UPDATE transactions SET loan_id = $1, amount = $2, remark = $3,
payment_date = $4, updated_at = $5 WHERE id = $6`, applied to one row. -/
def applyTxnUpdate (txid lid : Nat) (amount : ℚ) (remark : Option String)
    (pd : Option Nat) (now : Nat) (t : Txn) : Txn :=
  if t.id = txid then
    { t with loanId := lid, amount := amount, remark := remark,
             paymentDate := pd, updatedAt := now }
  else t

/-! ## Currency formatting (`fmt.Sprintf("%.2f", x)`) -/

/-- Two-digit zero padding of the fractional part. -/
def pad2 (n : Nat) : String :=
  if n < 10 then "0" ++ toString n else toString n

/-- Render a signed count of hundredths as a decimal numeral with two
fractional digits. -/
def fmt2i (c : Int) : String :=
  (if c < 0 then "-" else "") ++ toString (c.natAbs / 100) ++ "." ++ pad2 (c.natAbs % 100)

/-- `%.2f`: format a currency amount with exactly two fractional digits
(round to the nearest hundredth). -/
def fmt2 (q : ℚ) : String :=
  fmt2i (round (q * 100))

/-- The `ExceedsRemaining` message of `CreateTransaction` and
`UpdateTransaction`:
`Payment amount (฿%.2f) exceeds remaining debt (฿%.2f)`. -/
def exceedsMsg (amount remaining : ℚ) : String :=
  "Payment amount (฿" ++ fmt2 amount ++ ") exceeds remaining debt (฿" ++
    fmt2 remaining ++ ")"

/-! ## Handler results

Each constructor corresponds to one `respondWithError` / `respondWithJSON`
call of the source handler; the attached `httpStatus` function records the
HTTP status code passed there. -/

/-- Outcome of `CreateTransaction`. -/
inductive CreateTxResult where
  | badRequest (msg : String)
  | internalError (msg : String)
  | created (t : Txn) (borrowerName : String) (loanAmount : ℚ)
deriving DecidableEq, Repr

/-- HTTP status code of each `CreateTransaction` outcome as passed to
`respondWithError`/`respondWithJSON` in the source. -/
def CreateTxResult.httpStatus : CreateTxResult → Nat
  | .badRequest _ => 400
  | .internalError _ => 500
  | .created _ _ _ => 201

/-- Outcome of `UpdateTransaction`. -/
inductive UpdateTxResult where
  | badRequest (msg : String)
  | notFound (msg : String)
  | internalError (msg : String)
  | updated (t : Txn) (borrowerName : String) (loanAmount : ℚ)
deriving DecidableEq, Repr

/-- HTTP status code of each `UpdateTransaction` outcome. -/
def UpdateTxResult.httpStatus : UpdateTxResult → Nat
  | .badRequest _ => 400
  | .notFound _ => 404
  | .internalError _ => 500
  | .updated _ _ _ => 200

/-- Outcome of `DeleteTransaction`. -/
inductive DeleteTxResult where
  | notFound (msg : String)
  | internalError (msg : String)
  | deleted (msg : String)
deriving DecidableEq, Repr

/-- HTTP status code of each `DeleteTransaction` outcome. -/
def DeleteTxResult.httpStatus : DeleteTxResult → Nat
  | .notFound _ => 404
  | .internalError _ => 500
  | .deleted _ => 200

/-- Outcome of `UpdateLoan` / `DeleteLoan`. -/
inductive LoanOpResult where
  | badRequest (msg : String)
  | notFound (msg : String)
  | internalError (msg : String)
  | ok (msg : String)
deriving DecidableEq, Repr

/-- The loan row returned by `GetLoan` / `GetLoans`
(`models.LoanResponse` with the derived totals). -/
structure LoanResponse where
  id : Nat
  userId : Nat
  borrowerName : String
  amount : ℚ
  status : LoanStatus
  totalPaid : ℚ
  remainingDebt : ℚ
deriving DecidableEq, Repr

/-- Outcome of `GetLoan`. -/
inductive GetLoanResult where
  | notFound (msg : String)
  | ok (row : LoanResponse)
deriving DecidableEq, Repr

/-! ## `CreateTransaction` (RecordPayment) -/

/-- The row inserted by `CreateTransaction`
(`INSERT INTO transactions (id, loan_id, amount, remark, payment_date,
created_at, updated_at) VALUES ...`). -/
def insertedTxn (req : TransactionRequest) (lid newId now : Nat) : Txn :=
  { id := newId, loanId := lid, amount := req.amount, remark := req.remark,
    paymentDate := req.paymentDate, createdAt := now, updatedAt := now,
    deletedAt := none }

/-- Embedding of `TransactionHandler.CreateTransaction`: validate the
request, fetch the owned live loan together with its non-deleted paid
total, apply the already-paid and exceeds-remaining business checks, then
inside one database transaction insert the payment row and, when the new
total reaches the principal, set the loan status to `completed`; every
failing path of the atomic unit rolls back to the original store. -/
def CreateTransaction (f : DbFlags) (s : Store) (uid : Nat)
    (req : TransactionRequest) (newId now : Nat) : CreateTxResult × Store :=
  match req.loanId with
  | none => (.badRequest "Loan ID is required", s)
  | some lid =>
    if req.amount ≤ 0 then (.badRequest "Amount must be greater than 0", s)
    else
      match findLoanOwned s lid uid with
      | none => (.badRequest "Loan not found or access denied", s)
      | some loan =>
        let currentTotalPaid := totalPaid s lid
        let remainingDebt := loan.amount - currentTotalPaid
        if remainingDebt ≤ 0 then
          (.badRequest "This loan is already fully paid", s)
        else if req.amount > remainingDebt then
          (.badRequest (exceedsMsg req.amount remainingDebt), s)
        else if f.beginFail then
          (.internalError "Failed to begin transaction", s)
        else if f.exec1Fail then
          (.internalError "Failed to create transaction", s)
        else
          let s1 : Store :=
            { s with txns := s.txns ++ [insertedTxn req lid newId now] }
          let newTotalPaid := currentTotalPaid + req.amount
          if newTotalPaid ≥ loan.amount then
            if f.exec2Fail then
              (.internalError "Failed to update loan status", s)
            else
              let s2 : Store := { s1 with loans := s1.loans.map (setCompleted lid now) }
              if f.commitFail then
                (.internalError "Failed to commit transaction", s)
              else
                match fetchTxnJoin s2 newId with
                | none => (.internalError "Failed to fetch created transaction", s2)
                | some (t, bn, la) => (.created t bn la, s2)
          else
            if f.commitFail then
              (.internalError "Failed to commit transaction", s)
            else
              match fetchTxnJoin s1 newId with
              | none => (.internalError "Failed to fetch created transaction", s1)
              | some (t, bn, la) => (.created t bn la, s1)

/-! ## `UpdateTransaction` (AmendPayment) -/

/-- Embedding of `TransactionHandler.UpdateTransaction`: validate, look up
the live transaction joined with its owning loan (ownership through the
loan), apply the business checks against the paid total excluding this
transaction, then atomically rewrite the transaction row (including its
`loan_id`, taken from the request) and repair the status of the loan with
id `req.loanId`: set `completed` when the new total reaches the principal,
otherwise revert a `completed` loan to `active`. -/
def UpdateTransaction (f : DbFlags) (s : Store) (uid txid : Nat)
    (req : TransactionRequest) (now : Nat) : UpdateTxResult × Store :=
  match req.loanId with
  | none => (.badRequest "Loan ID is required", s)
  | some lid =>
    if req.amount ≤ 0 then (.badRequest "Amount must be greater than 0", s)
    else
      match findTxnOwned s txid uid with
      | none => (.notFound "Transaction not found or access denied", s)
      | some (_t, loan) =>
        let currentTotalPaidUpdate := totalPaidExcl s loan.id txid
        let remainingDebtUpdate := loan.amount - currentTotalPaidUpdate
        if remainingDebtUpdate ≤ 0 then
          (.badRequest "This loan is already fully paid", s)
        else if req.amount > remainingDebtUpdate then
          (.badRequest (exceedsMsg req.amount remainingDebtUpdate), s)
        else if f.beginFail then
          (.internalError "Failed to begin transaction", s)
        else if f.exec1Fail then
          (.internalError "Failed to update transaction", s)
        else
          let upd := applyTxnUpdate txid lid req.amount req.remark req.paymentDate now
          let s1 : Store := { s with txns := s.txns.map upd }
          let newTotalPaidUpdate := currentTotalPaidUpdate + req.amount
          if newTotalPaidUpdate ≥ loan.amount then
            if f.exec2Fail then
              (.internalError "Failed to update loan status", s)
            else
              let s2 : Store := { s1 with loans := s1.loans.map (setCompleted lid now) }
              if f.commitFail then
                (.internalError "Failed to commit transaction", s)
              else
                match fetchTxnJoin s2 txid with
                | none => (.internalError "Failed to fetch updated transaction", s2)
                | some (t', bn, la) => (.updated t' bn la, s2)
          else
            if f.exec2Fail then
              (.internalError "Failed to revert loan status", s)
            else
              let s2 : Store := { s1 with loans := s1.loans.map (revertIfCompleted lid now) }
              if f.commitFail then
                (.internalError "Failed to commit transaction", s)
              else
                match fetchTxnJoin s2 txid with
                | none => (.internalError "Failed to fetch updated transaction", s2)
                | some (t', bn, la) => (.updated t' bn la, s2)

/-! ## `DeleteTransaction` (RevokePayment) -/

/-- Embedding of `TransactionHandler.DeleteTransaction`: look up the live
transaction joined with its owning loan, then atomically soft-delete the
row (set its `deleted_at`) and repair the loan status from the new total
(the old non-deleted total minus this transaction's amount): `completed`
when it still reaches the principal, otherwise revert a `completed` loan
to `active`. -/
def DeleteTransaction (f : DbFlags) (s : Store) (uid txid now : Nat) :
    DeleteTxResult × Store :=
  match findTxnOwned s txid uid with
  | none => (.notFound "Transaction not found or access denied", s)
  | some (t, loan) =>
    let currentTotalPaidDelete := totalPaid s loan.id
    if f.beginFail then (.internalError "Failed to begin transaction", s)
    else if f.exec1Fail then (.internalError "Failed to delete transaction", s)
    else
      let s1 : Store := { s with txns := s.txns.map (markDeleted txid now) }
      let newTotalPaidDelete := currentTotalPaidDelete - t.amount
      if f.exec2Fail then (.internalError "Failed to update loan status", s)
      else
        let s2 : Store :=
          if newTotalPaidDelete ≥ loan.amount then
            { s1 with loans := s1.loans.map (setCompleted t.loanId now) }
          else
            { s1 with loans := s1.loans.map (revertIfCompleted t.loanId now) }
        if f.commitFail then (.internalError "Failed to commit transaction", s)
        else (.deleted "Transaction deleted successfully", s2)

/-! ## `UpdateLoan` and `DeleteLoan` -/

/-- Embedding of `LoanHandler.UpdateLoan`: validate, check ownership, then
rewrite the loan row (`borrower_name`, `amount`, `loan_date`, `due_date`).
The paid total is never consulted. The route parameter `id` is always
present, so the `loanID == ""` guard of the source is not represented. -/
def UpdateLoan (f : DbFlags) (s : Store) (uid lid : Nat) (req : LoanRequest)
    (now : Nat) : LoanOpResult × Store :=
  if req.borrowerName = "" then (.badRequest "Borrower name is required", s)
  else if req.amount ≤ 0 then (.badRequest "Amount must be greater than 0", s)
  else
    match findLoanOfUser s lid uid with
    | none => (.notFound "Loan not found", s)
    | some _ =>
      if f.exec1Fail then (.internalError "Failed to update loan", s)
      else
        let s1 : Store := { s with loans := s.loans.map (fun l =>
          if l.id = lid ∧ l.userId = uid then
            { l with borrowerName := req.borrowerName, amount := req.amount,
                     loanDate := req.loanDate, dueDate := req.dueDate,
                     updatedAt := now }
          else l) }
        (.ok "Loan updated successfully", s1)

/-- Embedding of `LoanHandler.DeleteLoan` (RemoveLoan): check ownership,
then inside one database transaction hard-delete all of the loan's
transactions (`DELETE FROM transactions WHERE loan_id = $1`) and then the
loan itself (`DELETE FROM loans WHERE id = $1 AND user_id = $2`); every
failing path rolls back to the original store. -/
def DeleteLoan (f : DbFlags) (s : Store) (uid lid : Nat) :
    LoanOpResult × Store :=
  match findLoanOfUser s lid uid with
  | none => (.notFound "Loan not found", s)
  | some _ =>
    if f.beginFail then (.internalError "Failed to begin transaction", s)
    else if f.exec1Fail then
      (.internalError "Failed to delete related transactions", s)
    else
      let s1 : Store := { s with txns := filterP (fun t => ¬ t.loanId = lid) s.txns }
      if f.exec2Fail then (.internalError "Failed to delete loan", s)
      else
        let s2 : Store := { s1 with loans := filterP (fun l =>
          ¬ (l.id = lid ∧ l.userId = uid)) s1.loans }
        if f.commitFail then (.internalError "Failed to commit transaction", s)
        else (.ok "Loan deleted successfully", s2)

/-! ## Loan read paths (`GetLoan`, `GetLoans`) -/

/-- One row of the `GetLoans`/`GetLoan` query: the derived totals use
`totalPaidAll` because the source's `LEFT JOIN transactions` carries no
`deleted_at IS NULL` condition. The handler overwrites `UserID` with the
requesting user's id. -/
def loanRow (s : Store) (l : Loan) (uid : Nat) : LoanResponse :=
  { id := l.id, userId := uid, borrowerName := l.borrowerName,
    amount := l.amount, status := l.status,
    totalPaid := totalPaidAll s l.id,
    remainingDebt := l.amount - totalPaidAll s l.id }

/-- Embedding of `LoanHandler.GetLoan`: the single-loan fetch with derived
`total_paid` / `remaining_debt` (no deleted filter on either table). -/
def GetLoan (s : Store) (uid lid : Nat) : GetLoanResult :=
  match findLoanOfUser s lid uid with
  | none => .notFound "Loan not found"
  | some l => .ok (loanRow s l uid)

/-- Rows produced by `LoanHandler.GetLoans` for a request without status or
search filter: one `loanRow` per loan of the user (`WHERE user_id = $1`,
no deleted filter). Ordering and `LIMIT`/`OFFSET` pagination select which
rows appear, never how a row's totals are computed, and are not modelled. -/
def GetLoansRows (s : Store) (uid : Nat) : List LoanResponse :=
  (filterP (fun l => l.userId = uid) s.loans).map (fun l => loanRow s l uid)

/-! ## Well-formedness and the ledger invariant -/

/-- Finds the transaction row with the given id (`WHERE t.id = $1`). -/
def findTxnById (s : Store) (txid : Nat) : Option Txn :=
  firstSuch (fun t => t.id = txid) s.txns

/-- Database well-formedness: primary keys of `loans` and `transactions`
are unique, and every stored transaction amount is positive (the API
rejects non-positive amounts before any insert or update). -/
def WfStore (s : Store) : Prop :=
  (s.loans.map Loan.id).Nodup ∧ (s.txns.map Txn.id).Nodup ∧
    ∀ t ∈ s.txns, 0 < t.amount

/-- The per-loan ledger invariant: the sum of the loan's non-deleted
transaction amounts never exceeds the loan's principal. -/
def LedgerInv (s : Store) : Prop :=
  ∀ l ∈ s.loans, totalPaid s l.id ≤ l.amount

/-- The three committed ledger operations (RecordPayment, AmendPayment,
RevokePayment) with their request data. -/
inductive LedgerOp where
  | record (uid : Nat) (req : TransactionRequest) (newId now : Nat)
  | amend (uid txid : Nat) (req : TransactionRequest) (now : Nat)
  | revoke (uid txid now : Nat)
deriving DecidableEq, Repr

/-- The store produced by running one ledger operation (with injected
storage-failure flags `f`); failing runs leave the store unchanged by
construction of the handlers. -/
def applyLedgerOp (f : DbFlags) (op : LedgerOp) (s : Store) : Store :=
  match op with
  | .record uid req newId now => (CreateTransaction f s uid req newId now).2
  | .amend uid txid req now => (UpdateTransaction f s uid txid req now).2
  | .revoke uid txid now => (DeleteTransaction f s uid txid now).2

/-- An `amend` request that does not move the transaction to a different
loan (the spec's `AmendPayment` takes no loan id at all; the source's
`UpdateTransaction` writes `req.loan_id` into the row unchecked). -/
def keepsLoan (op : LedgerOp) (s : Store) : Prop :=
  match op with
  | .amend _ txid req _ => ∀ t ∈ s.txns, t.id = txid → req.loanId = some t.loanId
  | _ => True

/-! ## Concrete stores for the refuting theorems -/

/-- A loan of user 1 with principal 1000 and one soft-deleted transaction
of 400: the store exhibiting the soft-delete read bug. -/
def storeDeletedTxn : Store :=
  { loans := [{ id := 10, userId := 1, borrowerName := "bob", amount := 1000,
                status := .active, loanDate := 0, dueDate := none,
                createdAt := 0, updatedAt := 0, deletedAt := none }],
    txns := [{ id := 1, loanId := 10, amount := 400, remark := none,
               paymentDate := none, createdAt := 1, updatedAt := 1,
               deletedAt := some 3 }] }

/-- Two users: user 1 owns loan 10 (principal 100) with one live
transaction of 40; user 2 owns loan 20 (principal 500). The store
exhibiting the amend-reparenting ownership bug. -/
def storeTwoUsers : Store :=
  { loans := [{ id := 10, userId := 1, borrowerName := "bob", amount := 100,
                status := .active, loanDate := 0, dueDate := none,
                createdAt := 0, updatedAt := 0, deletedAt := none },
              { id := 20, userId := 2, borrowerName := "carol", amount := 500,
                status := .active, loanDate := 0, dueDate := none,
                createdAt := 0, updatedAt := 0, deletedAt := none }],
    txns := [{ id := 1, loanId := 10, amount := 40, remark := none,
               paymentDate := none, createdAt := 1, updatedAt := 1,
               deletedAt := none }] }

/-- A fresh loan of user 1 with principal 100 and no transactions: the
starting store of the loan-edit counterexample. -/
def storeFreshLoan : Store :=
  { loans := [{ id := 10, userId := 1, borrowerName := "bob", amount := 100,
                status := .active, loanDate := 0, dueDate := none,
                createdAt := 0, updatedAt := 0, deletedAt := none }],
    txns := [] }

/-- The store after paying off `storeFreshLoan` in full with transaction 50
at time 5: the loan is `completed` and fully covered. -/
def storePaidLoan : Store :=
  { loans := [{ id := 10, userId := 1, borrowerName := "bob", amount := 100,
                status := .completed, loanDate := 0, dueDate := none,
                createdAt := 0, updatedAt := 5, deletedAt := none }],
    txns := [{ id := 50, loanId := 10, amount := 100, remark := none,
               paymentDate := none, createdAt := 5, updatedAt := 5,
               deletedAt := none }] }

/-- `storePaidLoan` after a loan edit that lowered the principal to 50 at
time 6: the paid total (100) now exceeds the principal. -/
def storeEditedLoan : Store :=
  { loans := [{ id := 10, userId := 1, borrowerName := "bob", amount := 50,
                status := .completed, loanDate := 0, dueDate := none,
                createdAt := 0, updatedAt := 6, deletedAt := none }],
    txns := [{ id := 50, loanId := 10, amount := 100, remark := none,
               paymentDate := none, createdAt := 5, updatedAt := 5,
               deletedAt := none }] }

/-- A loan of user 1 with principal 500 and one live transaction of 300:
the store of spec Scenario C. -/
def storePartPaid : Store :=
  { loans := [{ id := 30, userId := 1, borrowerName := "dana", amount := 500,
                status := .active, loanDate := 0, dueDate := none,
                createdAt := 0, updatedAt := 0, deletedAt := none }],
    txns := [{ id := 1, loanId := 30, amount := 300, remark := none,
               paymentDate := none, createdAt := 1, updatedAt := 1,
               deletedAt := none }] }

/-- A fully paid loan of user 1 with principal 1000 covered by a single
live transaction of 1000 (status `completed`): the store of spec
Scenario D. -/
def storeFullPaidBig : Store :=
  { loans := [{ id := 40, userId := 1, borrowerName := "erin", amount := 1000,
                status := .completed, loanDate := 0, dueDate := none,
                createdAt := 0, updatedAt := 2, deletedAt := none }],
    txns := [{ id := 2, loanId := 40, amount := 1000, remark := none,
               paymentDate := none, createdAt := 2, updatedAt := 2,
               deletedAt := none }] }

/-- A fully paid loan of user 1 with principal 1000 covered by live
transactions of 600 and 400 (status `completed`): the store of spec
Scenario E. -/
def storeTwoPayments : Store :=
  { loans := [{ id := 60, userId := 1, borrowerName := "gabe", amount := 1000,
                status := .completed, loanDate := 0, dueDate := none,
                createdAt := 0, updatedAt := 4, deletedAt := none }],
    txns := [{ id := 3, loanId := 60, amount := 600, remark := none,
               paymentDate := none, createdAt := 3, updatedAt := 3,
               deletedAt := none },
             { id := 4, loanId := 60, amount := 400, remark := none,
               paymentDate := none, createdAt := 4, updatedAt := 4,
               deletedAt := none }] }

/-! # Helper lemmas -/

theorem statusActiveNeCompleted : LoanStatus.active ≠ LoanStatus.completed :=
  fun h => nomatch h

theorem statusOverdueNeCompleted : LoanStatus.overdue ≠ LoanStatus.completed :=
  fun h => nomatch h

theorem firstSuch_mem_prop {α : Type} {p : α → Prop} [DecidablePred p]
    {xs : List α} {a : α} (h : firstSuch p xs = some a) : a ∈ xs ∧ p a := by
  induction xs with
  | nil => exact absurd h (by simp [firstSuch])
  | cons x xs ih =>
    rw [firstSuch] at h
    split at h
    · rename_i hx
      injection h with h
      subst h
      exact ⟨List.mem_cons_self x xs, hx⟩
    · obtain ⟨hm, hp⟩ := ih h
      exact ⟨List.mem_cons_of_mem x hm, hp⟩

theorem firstSuch_eq_none {α : Type} {p : α → Prop} [DecidablePred p]
    {xs : List α} : firstSuch p xs = none ↔ ∀ x ∈ xs, ¬ p x := by
  induction xs with
  | nil => simp [firstSuch]
  | cons x xs ih => by_cases hx : p x <;> simp [firstSuch, hx, ih]

theorem firstSuch_isSome {α : Type} {p : α → Prop} [DecidablePred p]
    {xs : List α} : (firstSuch p xs).isSome ↔ ∃ x ∈ xs, p x := by
  induction xs with
  | nil => simp [firstSuch]
  | cons x xs ih => by_cases hx : p x <;> simp [firstSuch, hx, ih]

theorem mem_filterP {α : Type} {p : α → Prop} [DecidablePred p]
    {xs : List α} {a : α} : a ∈ filterP p xs ↔ a ∈ xs ∧ p a := by
  induction xs with
  | nil => simp [filterP]
  | cons x xs ih =>
    by_cases hx : p x
    · simp only [filterP, if_pos hx, List.mem_cons, ih]
      constructor
      · rintro (rfl | ⟨hm, hp⟩)
        · exact ⟨Or.inl rfl, hx⟩
        · exact ⟨Or.inr hm, hp⟩
      · rintro ⟨rfl | hm, hp⟩
        · exact Or.inl rfl
        · exact Or.inr ⟨hm, hp⟩
    · simp only [filterP, if_neg hx, List.mem_cons, ih]
      constructor
      · rintro ⟨hm, hp⟩
        exact ⟨Or.inr hm, hp⟩
      · rintro ⟨rfl | hm, hp⟩
        · exact absurd hp hx
        · exact ⟨hm, hp⟩

/-- `firstSuch` commutes with a row map that does not change whether a row
matches. -/
theorem firstSuch_map {α : Type} (g : α → α) (p : α → Prop) [DecidablePred p]
    (hg : ∀ x, p (g x) ↔ p x) (xs : List α) :
    firstSuch p (xs.map g) = (firstSuch p xs).map g := by
  induction xs with
  | nil => simp [firstSuch]
  | cons x xs ih =>
    by_cases hx : p x
    · rw [List.map_cons, firstSuch, if_pos ((hg x).mpr hx), firstSuch, if_pos hx]
      rfl
    · rw [List.map_cons, firstSuch, if_neg (fun hc => hx ((hg x).mp hc)),
        firstSuch, if_neg hx, ih]

theorem findLoanOwned_spec {s : Store} {lid uid : Nat} {l : Loan}
    (h : findLoanOwned s lid uid = some l) :
    l ∈ s.loans ∧ l.id = lid ∧ l.userId = uid ∧ l.deletedAt = none := by
  obtain ⟨hm, hp⟩ := firstSuch_mem_prop h
  exact ⟨hm, hp.1, hp.2.1, hp.2.2⟩

theorem findLoanOfUser_spec {s : Store} {lid uid : Nat} {l : Loan}
    (h : findLoanOfUser s lid uid = some l) :
    l ∈ s.loans ∧ l.id = lid ∧ l.userId = uid := by
  obtain ⟨hm, hp⟩ := firstSuch_mem_prop h
  exact ⟨hm, hp.1, hp.2⟩

theorem findTxnOwned_spec {s : Store} {txid uid : Nat} {t : Txn} {l : Loan}
    (h : findTxnOwned s txid uid = some (t, l)) :
    t ∈ s.txns ∧ t.id = txid ∧ t.deletedAt = none ∧
      l ∈ s.loans ∧ l.id = t.loanId ∧ l.userId = uid := by
  unfold findTxnOwned at h
  split at h
  · exact absurd h (by simp)
  · rename_i t' hf
    split at h
    · exact absurd h (by simp)
    · rename_i l' hl
      obtain ⟨hmt, hpt⟩ := firstSuch_mem_prop hf
      obtain ⟨hml, hpl⟩ := firstSuch_mem_prop hl
      simp only [Option.some.injEq, Prod.mk.injEq] at h
      obtain ⟨rfl, rfl⟩ := h
      exact ⟨hmt, hpt.1, hpt.2.1, hml, hpl.1, hpl.2⟩

/-- With unique primary keys, the first row matching `id = v` is the unique
member with that id. -/
theorem firstSuch_id_of_nodup {α : Type} (f : α → Nat) {xs : List α}
    (hnd : (xs.map f).Nodup) {x : α} (hm : x ∈ xs) {v : Nat} (hid : f x = v) :
    firstSuch (fun y => f y = v) xs = some x := by
  cases hfind : firstSuch (fun y => f y = v) xs with
  | none =>
    rw [firstSuch_eq_none] at hfind
    exact absurd hid (hfind x hm)
  | some y =>
    obtain ⟨hmy, hpy⟩ := firstSuch_mem_prop hfind
    exact congrArg some
      (List.inj_on_of_nodup_map hnd hmy hm (by rw [hpy, hid]))

/-- Splitting a contribution sum at the unique row with id `txid`. -/
theorem paidSum_split (c1 c2 : Txn → ℚ) {txns : List Txn} {txid : Nat}
    (hnd : (txns.map Txn.id).Nodup) {t0 : Txn} (hm : t0 ∈ txns)
    (hid : t0.id = txid) :
    (txns.map (fun t => if t.id = txid then c1 t else c2 t)).sum
      = c1 t0 + (txns.map (fun t => if t.id = txid then 0 else c2 t)).sum := by
  induction txns with
  | nil => simp at hm
  | cons t ts ih =>
    simp only [List.map_cons, List.nodup_cons] at hnd
    obtain ⟨hni, hnd'⟩ := hnd
    rcases List.mem_cons.mp hm with h0 | hmem
    · subst h0
      have hall : ∀ u ∈ ts,
          (if u.id = txid then c1 u else c2 u) =
            (if u.id = txid then (0:ℚ) else c2 u) := by
        intro u hu
        have hne : u.id ≠ txid := by
          intro he
          exact hni (by rw [hid, ← he]; exact List.mem_map_of_mem Txn.id hu)
        rw [if_neg hne, if_neg hne]
      simp only [List.map_cons, List.sum_cons, if_pos hid,
        List.map_congr_left hall]
      rw [zero_add]
    · have hne : t.id ≠ txid := by
        intro he
        refine hni ?_
        rw [he, ← hid]
        exact List.mem_map_of_mem Txn.id hmem
      simp only [List.map_cons, List.sum_cons, if_neg hne, ih hnd' hmem]
      ring

/-- `firstSuch` on a fresh-id row appended at the end. -/
theorem firstSuch_append_fresh {txns : List Txn} {u : Txn} {v : Nat}
    (hu : u.id = v) (hfresh : ∀ t ∈ txns, t.id ≠ v) :
    firstSuch (fun t => t.id = v) (txns ++ [u]) = some u := by
  induction txns with
  | nil => simp [firstSuch, hu]
  | cons x xs ih =>
    rw [List.cons_append, firstSuch,
      if_neg (hfresh x (List.mem_cons_self x xs))]
    exact ih (fun t ht => hfresh t (List.mem_cons_of_mem x ht))

theorem setCompleted_id (lid now : Nat) (l : Loan) :
    (setCompleted lid now l).id = l.id := by
  unfold setCompleted; split <;> rfl

theorem setCompleted_amount (lid now : Nat) (l : Loan) :
    (setCompleted lid now l).amount = l.amount := by
  unfold setCompleted; split <;> rfl

theorem revertIfCompleted_id (lid now : Nat) (l : Loan) :
    (revertIfCompleted lid now l).id = l.id := by
  unfold revertIfCompleted; split <;> rfl

theorem revertIfCompleted_amount (lid now : Nat) (l : Loan) :
    (revertIfCompleted lid now l).amount = l.amount := by
  unfold revertIfCompleted; split <;> rfl

theorem markDeleted_id (txid now : Nat) (t : Txn) :
    (markDeleted txid now t).id = t.id := by
  unfold markDeleted; split <;> rfl

theorem applyTxnUpdate_id (txid lid : Nat) (amount : ℚ) (remark : Option String)
    (pd : Option Nat) (now : Nat) (t : Txn) :
    (applyTxnUpdate txid lid amount remark pd now t).id = t.id := by
  unfold applyTxnUpdate; split <;> rfl

theorem firstSuch_id_isSome {loans : List Loan} {lid : Nat}
    (h : ∃ l ∈ loans, l.id = lid) :
    ∃ l', firstSuch (fun l => l.id = lid) loans = some l' := by
  cases hfb : firstSuch (fun l => l.id = lid) loans with
  | none =>
    exfalso
    rw [firstSuch_eq_none] at hfb
    obtain ⟨l, hm, hid⟩ := h
    exact hfb l hm hid
  | some l' => exact ⟨l', rfl⟩

/-- The post-commit response fetch of `CreateTransaction` always finds the
row just inserted (its id is fresh) and the loan it references. -/
theorem fetchTxnJoin_insert {loans' : List Loan} {txns : List Txn}
    {req : TransactionRequest} {lid newId now : Nat}
    (hfresh : ∀ t ∈ txns, t.id ≠ newId) {l' : Loan}
    (hfb : firstSuch (fun l => l.id = lid) loans' = some l') :
    fetchTxnJoin { loans := loans', txns := txns ++ [insertedTxn req lid newId now] } newId
      = some (insertedTxn req lid newId now, l'.borrowerName, l'.amount) := by
  unfold fetchTxnJoin findLoanById
  dsimp only
  rw [firstSuch_append_fresh (u := insertedTxn req lid newId now) (v := newId) rfl hfresh]
  dsimp only [insertedTxn]
  rw [hfb]

/-- Success characterization of `CreateTransaction`: a `created` result
implies every validation and business check passed, the payment row was
inserted, and the loan table was rewritten by the completed-status update
exactly when the new total reaches the principal. -/
theorem CreateTransaction_created {f : DbFlags} {s : Store} {uid : Nat}
    {req : TransactionRequest} {newId now : Nat} {t : Txn} {bn : String}
    {la : ℚ} {s' : Store}
    (h : CreateTransaction f s uid req newId now = (.created t bn la, s')) :
    ∃ lid loan, req.loanId = some lid ∧ ¬ req.amount ≤ 0 ∧
      findLoanOwned s lid uid = some loan ∧
      ¬ loan.amount - totalPaid s lid ≤ 0 ∧
      ¬ req.amount > loan.amount - totalPaid s lid ∧
      s'.txns = s.txns ++ [insertedTxn req lid newId now] ∧
      ((totalPaid s lid + req.amount ≥ loan.amount ∧
          s'.loans = s.loans.map (setCompleted lid now)) ∨
        (¬ totalPaid s lid + req.amount ≥ loan.amount ∧ s'.loans = s.loans)) := by
  unfold CreateTransaction at h
  dsimp only at h
  split at h
  · exact absurd h (by simp)
  · rename_i lid hlid
    split at h
    · exact absurd h (by simp)
    · rename_i hamt
      split at h
      · exact absurd h (by simp)
      · rename_i loan hloan
        refine ⟨lid, loan, hlid, hamt, hloan, ?_⟩
        split at h
        · exact absurd h (by simp)
        · rename_i hrem
          split at h
          · exact absurd h (by simp)
          · rename_i hexc
            split at h
            · exact absurd h (by simp)
            · split at h
              · exact absurd h (by simp)
              · split at h
                · rename_i hfull
                  split at h
                  · exact absurd h (by simp)
                  · split at h
                    · exact absurd h (by simp)
                    · split at h
                      · exact absurd h (by simp)
                      · simp only [Prod.mk.injEq] at h
                        obtain ⟨-, rfl⟩ := h
                        exact ⟨hrem, hexc, rfl, Or.inl ⟨hfull, rfl⟩⟩
                · rename_i hnotfull
                  split at h
                  · exact absurd h (by simp)
                  · split at h
                    · exact absurd h (by simp)
                    · simp only [Prod.mk.injEq] at h
                      obtain ⟨-, rfl⟩ := h
                      exact ⟨hrem, hexc, rfl, Or.inr ⟨hnotfull, rfl⟩⟩

/-- Failure characterization of `CreateTransaction`: with a fresh
transaction id, every outcome other than `created` leaves the store
unchanged (validation and business failures return before `Begin`; storage
failures roll the staged writes back). -/
theorem CreateTransaction_not_created {f : DbFlags} {s : Store} {uid : Nat}
    {req : TransactionRequest} {newId now : Nat} {res : CreateTxResult} {st : Store}
    (hfresh : ∀ t ∈ s.txns, t.id ≠ newId)
    (h : CreateTransaction f s uid req newId now = (res, st))
    (hnc : ∀ t bn la, res ≠ .created t bn la) : st = s := by
  unfold CreateTransaction at h
  dsimp only at h
  split at h
  · injection h with h1 h2; exact h2.symm
  · rename_i lid hlid
    split at h
    · injection h with h1 h2; exact h2.symm
    · split at h
      · injection h with h1 h2; exact h2.symm
      · rename_i loan hloan
        obtain ⟨hml, hid, -, -⟩ := findLoanOwned_spec hloan
        split at h
        · injection h with h1 h2; exact h2.symm
        · split at h
          · injection h with h1 h2; exact h2.symm
          · split at h
            · injection h with h1 h2; exact h2.symm
            · split at h
              · injection h with h1 h2; exact h2.symm
              · split at h
                · split at h
                  · injection h with h1 h2; exact h2.symm
                  · split at h
                    · injection h with h1 h2; exact h2.symm
                    · split at h
                      · rename_i hfetch
                        exfalso
                        have hex : ∃ l ∈ s.loans.map (setCompleted lid now),
                            l.id = lid :=
                          ⟨setCompleted lid now loan,
                            List.mem_map_of_mem (setCompleted lid now) hml,
                            by rw [setCompleted_id]; exact hid⟩
                        obtain ⟨l', hfb⟩ := firstSuch_id_isSome hex
                        rw [fetchTxnJoin_insert hfresh hfb] at hfetch
                        exact absurd hfetch (by simp)
                      · rename_i pr hfetch
                        injection h with h1 h2
                        exact absurd h1.symm (hnc _ _ _)
                · split at h
                  · injection h with h1 h2; exact h2.symm
                  · split at h
                    · rename_i hfetch
                      exfalso
                      obtain ⟨l', hfb⟩ := firstSuch_id_isSome ⟨loan, hml, hid⟩
                      rw [fetchTxnJoin_insert hfresh hfb] at hfetch
                      exact absurd hfetch (by simp)
                    · rename_i pr hfetch
                      injection h with h1 h2
                      exact absurd h1.symm (hnc _ _ _)

/-- Both formatted amounts occur verbatim inside the exceeds-remaining
message. -/
theorem fmt2_infix_exceedsMsg (a r : ℚ) :
    (fmt2 a).data <:+: (exceedsMsg a r).data ∧
      (fmt2 r).data <:+: (exceedsMsg a r).data := by
  constructor
  · refine ⟨"Payment amount (฿".data,
      (") exceeds remaining debt (฿" ++ fmt2 r ++ ")").data, ?_⟩
    simp [exceedsMsg, String.data_append, List.append_assoc]
  · refine ⟨("Payment amount (฿" ++ fmt2 a ++ ") exceeds remaining debt (฿").data,
      (")" : String).data, ?_⟩
    simp [exceedsMsg, String.data_append, List.append_assoc]

/-- Run characterization of `UpdateTransaction`: either the store is
untouched (and the result is not `updated`), or every check passed and the
store holds the rewritten transaction row plus the status repair on the
requested loan id (set `completed` when the new total reaches the
principal, otherwise revert a `completed` loan to `active`). -/
theorem UpdateTransaction_run {f : DbFlags} {s : Store} {uid txid : Nat}
    {req : TransactionRequest} {now : Nat} {res : UpdateTxResult} {st : Store}
    (h : UpdateTransaction f s uid txid req now = (res, st)) :
    (st = s ∧ ∀ t' bn la, res ≠ .updated t' bn la) ∨
    (∃ lid t0 loan, req.loanId = some lid ∧ ¬ req.amount ≤ 0 ∧
      findTxnOwned s txid uid = some (t0, loan) ∧
      ¬ loan.amount - totalPaidExcl s loan.id txid ≤ 0 ∧
      ¬ req.amount > loan.amount - totalPaidExcl s loan.id txid ∧
      st.txns = s.txns.map
        (applyTxnUpdate txid lid req.amount req.remark req.paymentDate now) ∧
      ((totalPaidExcl s loan.id txid + req.amount ≥ loan.amount ∧
          st.loans = s.loans.map (setCompleted lid now)) ∨
       (¬ totalPaidExcl s loan.id txid + req.amount ≥ loan.amount ∧
          st.loans = s.loans.map (revertIfCompleted lid now)))) := by
  unfold UpdateTransaction at h
  dsimp only at h
  split at h
  · injection h with h1 h2; exact Or.inl ⟨h2.symm, by rw [← h1]; simp⟩
  · rename_i lid hlid
    split at h
    · injection h with h1 h2; exact Or.inl ⟨h2.symm, by rw [← h1]; simp⟩
    · rename_i hamt
      split at h
      · injection h with h1 h2; exact Or.inl ⟨h2.symm, by rw [← h1]; simp⟩
      · rename_i t0 loan hfound
        split at h
        · injection h with h1 h2; exact Or.inl ⟨h2.symm, by rw [← h1]; simp⟩
        · rename_i hrem
          split at h
          · injection h with h1 h2; exact Or.inl ⟨h2.symm, by rw [← h1]; simp⟩
          · rename_i hexc
            split at h
            · injection h with h1 h2; exact Or.inl ⟨h2.symm, by rw [← h1]; simp⟩
            · split at h
              · injection h with h1 h2; exact Or.inl ⟨h2.symm, by rw [← h1]; simp⟩
              · split at h
                · rename_i hfull
                  split at h
                  · injection h with h1 h2
                    exact Or.inl ⟨h2.symm, by rw [← h1]; simp⟩
                  · split at h
                    · injection h with h1 h2
                      exact Or.inl ⟨h2.symm, by rw [← h1]; simp⟩
                    · split at h <;>
                      · injection h with h1 h2
                        refine Or.inr ⟨lid, t0, loan, hlid, hamt, hfound, hrem,
                          hexc, ?_, Or.inl ⟨hfull, ?_⟩⟩ <;> rw [← h2]
                · rename_i hnotfull
                  split at h
                  · injection h with h1 h2
                    exact Or.inl ⟨h2.symm, by rw [← h1]; simp⟩
                  · split at h
                    · injection h with h1 h2
                      exact Or.inl ⟨h2.symm, by rw [← h1]; simp⟩
                    · split at h <;>
                      · injection h with h1 h2
                        refine Or.inr ⟨lid, t0, loan, hlid, hamt, hfound, hrem,
                          hexc, ?_, Or.inr ⟨hnotfull, ?_⟩⟩ <;> rw [← h2]

/-- Soft-deleting one row removes exactly its contribution from the paid
total. -/
theorem totalPaid_markDeleted {txns : List Txn} {txid now : Nat}
    (hnd : (txns.map Txn.id).Nodup) {t0 : Txn} (hm : t0 ∈ txns)
    (hid : t0.id = txid) (lid : Nat) :
    ((txns.map (markDeleted txid now)).map (paidContrib lid)).sum
      = (txns.map (paidContrib lid)).sum - paidContrib lid t0 := by
  rw [List.map_map]
  have hfun : (paidContrib lid ∘ markDeleted txid now)
      = fun t => if t.id = txid then 0 else paidContrib lid t := by
    funext t
    simp only [Function.comp_apply]
    unfold markDeleted
    by_cases ht : t.id = txid
    · rw [if_pos ht, if_pos ht]
      unfold paidContrib
      rw [if_neg (by simp)]
    · rw [if_neg ht, if_neg ht]
  rw [hfun]
  have h1 := paidSum_split (paidContrib lid) (paidContrib lid) hnd hm hid
  have h0 : (txns.map fun t =>
      if t.id = txid then paidContrib lid t else paidContrib lid t)
      = txns.map (paidContrib lid) :=
    List.map_congr_left (fun t _ => ite_self (paidContrib lid t))
  rw [h0] at h1
  linarith [h1]

/-- Run characterization of `DeleteTransaction`: either the store is
untouched (and the result is not `deleted`), or the transaction row is
soft-deleted and the loan status repaired from the new total. -/
theorem DeleteTransaction_run {f : DbFlags} {s : Store} {uid txid now : Nat}
    {res : DeleteTxResult} {st : Store}
    (h : DeleteTransaction f s uid txid now = (res, st)) :
    (st = s ∧ ∀ msg, res ≠ .deleted msg) ∨
    (∃ t0 loan, findTxnOwned s txid uid = some (t0, loan) ∧
      st.txns = s.txns.map (markDeleted txid now) ∧
      ((totalPaid s loan.id - t0.amount ≥ loan.amount ∧
          st.loans = s.loans.map (setCompleted t0.loanId now)) ∨
       (¬ totalPaid s loan.id - t0.amount ≥ loan.amount ∧
          st.loans = s.loans.map (revertIfCompleted t0.loanId now)))) := by
  unfold DeleteTransaction at h
  dsimp only at h
  split at h
  · injection h with h1 h2; exact Or.inl ⟨h2.symm, by rw [← h1]; simp⟩
  · rename_i t0 loan hfound
    split at h
    · injection h with h1 h2; exact Or.inl ⟨h2.symm, by rw [← h1]; simp⟩
    · split at h
      · injection h with h1 h2; exact Or.inl ⟨h2.symm, by rw [← h1]; simp⟩
      · split at h
        · injection h with h1 h2; exact Or.inl ⟨h2.symm, by rw [← h1]; simp⟩
        · split at h
          · injection h with h1 h2; exact Or.inl ⟨h2.symm, by rw [← h1]; simp⟩
          · injection h with h1 h2
            refine Or.inr ⟨t0, loan, hfound, ?_⟩
            rw [← h2]
            by_cases hfull : totalPaid s loan.id - t0.amount ≥ loan.amount
            · rw [if_pos hfull]
              exact ⟨rfl, Or.inl ⟨hfull, rfl⟩⟩
            · rw [if_neg hfull]
              exact ⟨rfl, Or.inr ⟨hfull, rfl⟩⟩

/-- Store characterization of `CreateTransaction`: independent of the
result value, the final store is either the original one or carries
exactly the staged commit (inserted row, plus the status write in the
fully-paid case). -/
theorem CreateTransaction_run {f : DbFlags} {s : Store} {uid : Nat}
    {req : TransactionRequest} {newId now : Nat} {res : CreateTxResult} {st : Store}
    (h : CreateTransaction f s uid req newId now = (res, st)) :
    st = s ∨
    (∃ lid loan, req.loanId = some lid ∧ ¬ req.amount ≤ 0 ∧
      findLoanOwned s lid uid = some loan ∧
      ¬ loan.amount - totalPaid s lid ≤ 0 ∧
      ¬ req.amount > loan.amount - totalPaid s lid ∧
      st.txns = s.txns ++ [insertedTxn req lid newId now] ∧
      ((totalPaid s lid + req.amount ≥ loan.amount ∧
          st.loans = s.loans.map (setCompleted lid now)) ∨
       (¬ totalPaid s lid + req.amount ≥ loan.amount ∧ st.loans = s.loans))) := by
  unfold CreateTransaction at h
  dsimp only at h
  split at h
  · injection h with h1 h2; exact Or.inl h2.symm
  · rename_i lid hlid
    split at h
    · injection h with h1 h2; exact Or.inl h2.symm
    · rename_i hamt
      split at h
      · injection h with h1 h2; exact Or.inl h2.symm
      · rename_i loan hloan
        split at h
        · injection h with h1 h2; exact Or.inl h2.symm
        · rename_i hrem
          split at h
          · injection h with h1 h2; exact Or.inl h2.symm
          · rename_i hexc
            split at h
            · injection h with h1 h2; exact Or.inl h2.symm
            · split at h
              · injection h with h1 h2; exact Or.inl h2.symm
              · split at h
                · rename_i hfull
                  split at h
                  · injection h with h1 h2; exact Or.inl h2.symm
                  · split at h
                    · injection h with h1 h2; exact Or.inl h2.symm
                    · split at h <;>
                      · injection h with h1 h2
                        exact Or.inr ⟨lid, loan, hlid, hamt, hloan, hrem, hexc,
                          by rw [← h2], Or.inl ⟨hfull, by rw [← h2]⟩⟩
                · rename_i hnotfull
                  split at h
                  · injection h with h1 h2; exact Or.inl h2.symm
                  · split at h <;>
                    · injection h with h1 h2
                      exact Or.inr ⟨lid, loan, hlid, hamt, hloan, hrem, hexc,
                        by rw [← h2], Or.inr ⟨hnotfull, by rw [← h2]⟩⟩

theorem paidSum_append (txns : List Txn) (u : Txn) (lid : Nat) :
    (((txns ++ [u]).map (paidContrib lid))).sum
      = (txns.map (paidContrib lid)).sum + paidContrib lid u := by
  simp [List.map_append, List.sum_append]

theorem paidSum_excl_eq (txns : List Txn) (lid txid : Nat) :
    (txns.map (fun t => if t.id = txid then 0 else paidContrib lid t)).sum
      = (txns.map (fun t =>
          if t.loanId = lid ∧ t.deletedAt = none ∧ t.id ≠ txid then t.amount
          else 0)).sum := by
  refine congrArg List.sum (List.map_congr_left (fun t _ => ?_))
  by_cases ht : t.id = txid
  · rw [if_pos ht, if_neg (fun hc => hc.2.2 ht)]
  · rw [if_neg ht]
    unfold paidContrib
    by_cases hc : t.loanId = lid ∧ t.deletedAt = none
    · rw [if_pos hc, if_pos ⟨hc.1, hc.2, ht⟩]
    · rw [if_neg hc, if_neg (fun hx => hc ⟨hx.1, hx.2.1⟩)]

theorem mem_map_status {g : Loan → Loan}
    (hg : ∀ l, (g l).id = l.id ∧ (g l).amount = l.amount) {l' : Loan}
    {loans : List Loan} (h : l' ∈ loans.map g) :
    ∃ l ∈ loans, l'.id = l.id ∧ l'.amount = l.amount := by
  obtain ⟨l, hl, rfl⟩ := List.mem_map.mp h
  exact ⟨l, hl, (hg l).1, (hg l).2⟩

theorem totalPaid_applyTxnUpdate_target {txns : List Txn} {txid now : Nat}
    (hnd : (txns.map Txn.id).Nodup) {t0 : Txn} (hm : t0 ∈ txns)
    (hid : t0.id = txid) (hdel : t0.deletedAt = none)
    (lid : Nat) (amount : ℚ) (remark : Option String) (pd : Option Nat) :
    ((txns.map (applyTxnUpdate txid lid amount remark pd now)).map
        (paidContrib lid)).sum
      = (txns.map (fun t =>
          if t.loanId = lid ∧ t.deletedAt = none ∧ t.id ≠ txid then t.amount
          else 0)).sum + amount := by
  rw [List.map_map]
  have hfun : (paidContrib lid ∘ applyTxnUpdate txid lid amount remark pd now)
      = fun t => if t.id = txid then (if t.deletedAt = none then amount else 0)
                 else paidContrib lid t := by
    funext t
    simp only [Function.comp_apply]
    unfold applyTxnUpdate
    by_cases ht : t.id = txid
    · rw [if_pos ht, if_pos ht]
      unfold paidContrib
      dsimp only
      by_cases hd : t.deletedAt = none
      · rw [if_pos ⟨rfl, hd⟩, if_pos hd]
      · rw [if_neg (fun hc => hd hc.2), if_neg hd]
    · rw [if_neg ht, if_neg ht]
  rw [hfun,
    paidSum_split (fun t => if t.deletedAt = none then amount else 0)
      (paidContrib lid) hnd hm hid,
    if_pos hdel, paidSum_excl_eq]
  ring

theorem totalPaid_applyTxnUpdate_other {txns : List Txn} {txid now : Nat}
    (hnd : (txns.map Txn.id).Nodup) {t0 : Txn} (hm : t0 ∈ txns)
    (hid : t0.id = txid) (lid : Nat) (amount : ℚ) (remark : Option String)
    (pd : Option Nat) {v : Nat} (hne : lid ≠ v) (ht0 : t0.loanId = lid) :
    ((txns.map (applyTxnUpdate txid lid amount remark pd now)).map
        (paidContrib v)).sum
      = (txns.map (paidContrib v)).sum := by
  rw [List.map_map]
  have hfun : (paidContrib v ∘ applyTxnUpdate txid lid amount remark pd now)
      = fun t => if t.id = txid then 0 else paidContrib v t := by
    funext t
    simp only [Function.comp_apply]
    unfold applyTxnUpdate
    by_cases ht : t.id = txid
    · rw [if_pos ht, if_pos ht]
      unfold paidContrib
      dsimp only
      rw [if_neg (fun hc => hne hc.1)]
    · rw [if_neg ht, if_neg ht]
  rw [hfun, paidSum_split (fun _ => 0) (paidContrib v) hnd hm hid]
  have h1 := paidSum_split (paidContrib v) (paidContrib v) hnd hm hid
  have h0 : (txns.map fun t =>
      if t.id = txid then paidContrib v t else paidContrib v t)
      = txns.map (paidContrib v) :=
    List.map_congr_left (fun t _ => ite_self (paidContrib v t))
  rw [h0] at h1
  have hz : paidContrib v t0 = 0 := by
    unfold paidContrib
    rw [if_neg (fun hc => hne (by rw [← ht0]; exact hc.1))]
  linarith [h1]

/-- `CreateTransaction` preserves the per-loan ledger invariant. -/
theorem CreateTransaction_preserves {f : DbFlags} {s : Store} {uid : Nat}
    {req : TransactionRequest} {newId now : Nat}
    (hwf : WfStore s) (hinv : LedgerInv s) :
    LedgerInv (CreateTransaction f s uid req newId now).2 := by
  obtain ⟨hndl, hndt, hpos⟩ := hwf
  have h : CreateTransaction f s uid req newId now
      = ((CreateTransaction f s uid req newId now).1,
         (CreateTransaction f s uid req newId now).2) := rfl
  rcases CreateTransaction_run h with
    hst | ⟨lid, loan, hlid, hamt, hloan, hrem, hexc, htx, hcase⟩
  · rw [hst]; exact hinv
  · obtain ⟨hml, hidl, -, -⟩ := findLoanOwned_spec hloan
    have hsum : ∀ l ∈ s.loans,
        totalPaid (CreateTransaction f s uid req newId now).2 l.id ≤ l.amount := by
      intro l hl
      unfold totalPaid
      rw [htx, paidSum_append]
      by_cases hcaseid : l.id = lid
      · have hleq : l = loan :=
          List.inj_on_of_nodup_map hndl hl hml (by rw [hcaseid, hidl])
        have hc : paidContrib l.id (insertedTxn req lid newId now) = req.amount := by
          unfold paidContrib insertedTxn
          dsimp only
          rw [if_pos ⟨hcaseid.symm, rfl⟩]
        rw [hc, hcaseid, hleq]
        have hle := not_lt.mp hexc
        unfold totalPaid at hle
        linarith
      · have hc : paidContrib l.id (insertedTxn req lid newId now) = 0 := by
          unfold paidContrib insertedTxn
          dsimp only
          rw [if_neg (fun hx => hcaseid hx.1.symm)]
        rw [hc, add_zero]
        have := hinv l hl
        unfold totalPaid at this
        exact this
    intro l' hl'
    rcases hcase with ⟨-, hloans⟩ | ⟨-, hloans⟩
    · rw [hloans] at hl'
      obtain ⟨l, hl, hid', hamt'⟩ := mem_map_status
        (fun l => ⟨setCompleted_id lid now l, setCompleted_amount lid now l⟩) hl'
      rw [hid', hamt']
      exact hsum l hl
    · rw [hloans] at hl'
      exact hsum l' hl'

/-- `DeleteTransaction` preserves the per-loan ledger invariant. -/
theorem DeleteTransaction_preserves {f : DbFlags} {s : Store} {uid txid now : Nat}
    (hwf : WfStore s) (hinv : LedgerInv s) :
    LedgerInv (DeleteTransaction f s uid txid now).2 := by
  obtain ⟨hndl, hndt, hpos⟩ := hwf
  have h : DeleteTransaction f s uid txid now
      = ((DeleteTransaction f s uid txid now).1,
         (DeleteTransaction f s uid txid now).2) := rfl
  rcases DeleteTransaction_run h with ⟨hst, -⟩ | ⟨t0, loan, hfound, htx, hcase⟩
  · rw [hst]; exact hinv
  · obtain ⟨hmt, hidt, -, -, -, -⟩ := findTxnOwned_spec hfound
    have hsum : ∀ l ∈ s.loans,
        totalPaid (DeleteTransaction f s uid txid now).2 l.id ≤ l.amount := by
      intro l hl
      unfold totalPaid
      rw [htx, totalPaid_markDeleted hndt hmt hidt l.id]
      have hge : 0 ≤ paidContrib l.id t0 := by
        unfold paidContrib
        split
        · exact le_of_lt (hpos t0 hmt)
        · exact le_refl 0
      have := hinv l hl
      unfold totalPaid at this
      linarith
    intro l' hl'
    rcases hcase with ⟨-, hloans⟩ | ⟨-, hloans⟩
    · rw [hloans] at hl'
      obtain ⟨l, hl, hid', hamt'⟩ := mem_map_status
        (fun l => ⟨setCompleted_id t0.loanId now l,
          setCompleted_amount t0.loanId now l⟩) hl'
      rw [hid', hamt']
      exact hsum l hl
    · rw [hloans] at hl'
      obtain ⟨l, hl, hid', hamt'⟩ := mem_map_status
        (fun l => ⟨revertIfCompleted_id t0.loanId now l,
          revertIfCompleted_amount t0.loanId now l⟩) hl'
      rw [hid', hamt']
      exact hsum l hl

/-- `UpdateTransaction` preserves the per-loan ledger invariant when the
request keeps the transaction's current loan id. -/
theorem UpdateTransaction_preserves {f : DbFlags} {s : Store} {uid txid : Nat}
    {req : TransactionRequest} {now : Nat}
    (hwf : WfStore s) (hinv : LedgerInv s)
    (hkeep : ∀ t ∈ s.txns, t.id = txid → req.loanId = some t.loanId) :
    LedgerInv (UpdateTransaction f s uid txid req now).2 := by
  obtain ⟨hndl, hndt, hpos⟩ := hwf
  have h : UpdateTransaction f s uid txid req now
      = ((UpdateTransaction f s uid txid req now).1,
         (UpdateTransaction f s uid txid req now).2) := rfl
  rcases UpdateTransaction_run h with
    ⟨hst, -⟩ | ⟨lid, t0, loan, hlid, hamt, hfound, hrem, hexc, htx, hcase⟩
  · rw [hst]; exact hinv
  · obtain ⟨hmt, hidt, hdelt, hml, hidl, -⟩ := findTxnOwned_spec hfound
    have hlid0 : lid = t0.loanId := by
      have hk := hkeep t0 hmt hidt
      rw [hlid] at hk
      injection hk
    have hloanlid : loan.id = lid := by rw [hidl, ← hlid0]
    have hsum : ∀ l ∈ s.loans,
        totalPaid (UpdateTransaction f s uid txid req now).2 l.id ≤ l.amount := by
      intro l hl
      unfold totalPaid
      rw [htx]
      by_cases hcaseid : l.id = lid
      · have hleq : l = loan :=
          List.inj_on_of_nodup_map hndl hl hml (by rw [hcaseid, hloanlid])
        rw [hcaseid,
          totalPaid_applyTxnUpdate_target hndt hmt hidt hdelt lid req.amount
            req.remark req.paymentDate, hleq]
        have hle := not_lt.mp hexc
        unfold totalPaidExcl at hle
        rw [hloanlid] at hle
        linarith
      · rw [totalPaid_applyTxnUpdate_other hndt hmt hidt lid req.amount
          req.remark req.paymentDate (fun he => hcaseid he.symm) hlid0.symm]
        have := hinv l hl
        unfold totalPaid at this
        exact this
    intro l' hl'
    rcases hcase with ⟨-, hloans⟩ | ⟨-, hloans⟩
    · rw [hloans] at hl'
      obtain ⟨l, hl, hid', hamt'⟩ := mem_map_status
        (fun l => ⟨setCompleted_id lid now l, setCompleted_amount lid now l⟩) hl'
      rw [hid', hamt']
      exact hsum l hl
    · rw [hloans] at hl'
      obtain ⟨l, hl, hid', hamt'⟩ := mem_map_status
        (fun l => ⟨revertIfCompleted_id lid now l,
          revertIfCompleted_amount lid now l⟩) hl'
      rw [hid', hamt']
      exact hsum l hl

/-! # Claims -/

/-- C1 (counterexample). The claim "after any committed ledger operation
and any loan edit, the sum of the non-deleted transaction amounts is at
most the principal" is false on the code: starting from a loan with
principal 100, a committed `RecordPayment` of 100 (which preserves the
invariant) followed by a loan edit (`UpdateLoan`) that lowers the
principal to 50 succeeds, and leaves the loan with paid total 100 > 50 —
`UpdateLoan` never consults the paid total. -/
theorem loanEdit_breaks_paid_le_principal :
    CreateTransaction .ok storeFreshLoan 1
        { loanId := some 10, amount := 100, remark := none, paymentDate := none } 50 5
      = (.created { id := 50, loanId := 10, amount := 100, remark := none,
                    paymentDate := none, createdAt := 5, updatedAt := 5,
                    deletedAt := none } "bob" 100, storePaidLoan) ∧
    UpdateLoan .ok storePaidLoan 1 10
        { borrowerName := "bob", amount := 50, loanDate := 0, dueDate := none } 6
      = (.ok "Loan updated successfully", storeEditedLoan) ∧
    LedgerInv storePaidLoan ∧ ¬ LedgerInv storeEditedLoan := by
  refine ⟨?_, ?_, ?_, ?_⟩
  · norm_num [CreateTransaction, insertedTxn, findLoanOwned, totalPaid, paidContrib,
      fetchTxnJoin, findLoanById, setCompleted, storeFreshLoan, storePaidLoan,
      DbFlags.ok, firstSuch]
  · norm_num [UpdateLoan, findLoanOfUser, storePaidLoan, storeEditedLoan, DbFlags.ok,
      firstSuch]
    decide
  · norm_num [LedgerInv, totalPaid, paidContrib, storePaidLoan]
  · norm_num [LedgerInv, totalPaid, paidContrib, storeEditedLoan]

/-- C6. The loan read endpoints contradict the claim that `total_paid`
sums only non-deleted transactions: on a loan with principal 1000 whose
single transaction of 400 is soft-deleted, `GetLoan` (and the `GetLoans`
listing) report `total_paid = 400` and `remaining_debt = 600`, while the
sum of non-deleted transaction amounts is 0 — their SQL join lacks the
`deleted_at IS NULL` filter used everywhere else. -/
theorem loanReads_count_soft_deleted :
    GetLoan storeDeletedTxn 1 10 =
      .ok { id := 10, userId := 1, borrowerName := "bob", amount := 1000,
            status := .active, totalPaid := 400, remainingDebt := 600 } ∧
    totalPaid storeDeletedTxn 10 = 0 ∧
    (GetLoansRows storeDeletedTxn 1).map LoanResponse.totalPaid = [400] := by
  refine ⟨?_, ?_, ?_⟩ <;>
    norm_num [GetLoan, GetLoansRows, loanRow, findLoanOfUser, totalPaidAll,
      totalPaid, paidContrib, storeDeletedTxn, firstSuch, filterP, Option.some_ne_none]

/-- C8. `UpdateTransaction` (AmendPayment) violates the ownership claim:
user 1 amends their transaction 1 (on their own loan 10) into a request
naming user 2's loan 20; the operation succeeds with HTTP 200 and
re-parents the transaction onto loan 20, which belongs to user 2 — the
handler checks ownership of the transaction's current loan only, never of
the requested `loan_id`. -/
theorem amendPayment_reparents_to_foreign_loan :
    ((UpdateTransaction .ok storeTwoUsers 1 1
        { loanId := some 20, amount := 50, remark := none, paymentDate := none } 7).1
      = .updated { id := 1, loanId := 20, amount := 50, remark := none,
                   paymentDate := none, createdAt := 1, updatedAt := 7,
                   deletedAt := none } "carol" 500) ∧
    ((findTxnById (UpdateTransaction .ok storeTwoUsers 1 1
        { loanId := some 20, amount := 50, remark := none, paymentDate := none } 7).2 1).map
      Txn.loanId = some 20) ∧
    ((findLoanById storeTwoUsers 20).map Loan.userId = some 2) := by
  refine ⟨?_, ?_, ?_⟩ <;>
    norm_num [UpdateTransaction, findTxnOwned, findTxnById, findLoanById, totalPaidExcl,
      applyTxnUpdate, revertIfCompleted, fetchTxnJoin, storeTwoUsers, DbFlags.ok, firstSuch,
      statusActiveNeCompleted]

/-- C10. `CreateTransaction` (RecordPayment) on a loan id that does not
exist responds with HTTP 400 ("Loan not found or access denied"), not the
404 required by the claim — the handler passes `http.StatusBadRequest` for
its `sql.ErrNoRows` branch, unlike the sibling transaction endpoints. -/
theorem recordPayment_missing_loan_returns_400 :
    (CreateTransaction .ok storeFreshLoan 1
        { loanId := some 99, amount := 5, remark := none, paymentDate := none } 100 5).1
      = .badRequest "Loan not found or access denied" ∧
    CreateTxResult.httpStatus (.badRequest "Loan not found or access denied") = 400 := by
  constructor
  · norm_num [CreateTransaction, findLoanOwned, storeFreshLoan, firstSuch]
  · rfl

/-- C3. For every successful `CreateTransaction` (RecordPayment): when the
prior paid total plus the payment amount reaches the principal, the loan's
status is set to `completed`; otherwise the loan row keeps its previous
status (`active` stays `active`, `overdue` stays `overdue`), since the
status update is only executed in the fully-paid case. -/
theorem recordPayment_status_update {f : DbFlags} {s : Store} {uid : Nat}
    {req : TransactionRequest} {newId now : Nat} {t : Txn} {bn : String}
    {la : ℚ} {s' : Store} {lid : Nat} {loan : Loan}
    (hnd : (s.loans.map Loan.id).Nodup)
    (hreq : req.loanId = some lid)
    (hloan : findLoanOwned s lid uid = some loan)
    (h : CreateTransaction f s uid req newId now = (.created t bn la, s')) :
    ∃ loan', findLoanById s' lid = some loan' ∧ loan'.amount = loan.amount ∧
      loan'.status =
        (if totalPaid s lid + req.amount ≥ loan.amount then .completed
         else loan.status) := by
  obtain ⟨lid2, loan2, hreq2, -, hloan2, -, -, -, hcase⟩ := CreateTransaction_created h
  rw [hreq] at hreq2
  injection hreq2 with hl
  subst hl
  rw [hloan] at hloan2
  injection hloan2 with hl2
  subst hl2
  obtain ⟨hml, hid, -⟩ := findLoanOwned_spec hloan
  rcases hcase with ⟨hfull, hloans⟩ | ⟨hnot, hloans⟩
  · refine ⟨setCompleted lid now loan, ?_, setCompleted_amount lid now loan, ?_⟩
    · unfold findLoanById
      rw [hloans,
        firstSuch_map (setCompleted lid now) _ (fun l => by rw [setCompleted_id]) s.loans,
        firstSuch_id_of_nodup Loan.id hnd hml hid]
      rfl
    · rw [if_pos hfull]
      unfold setCompleted
      rw [if_pos hid]
  · refine ⟨loan, ?_, rfl, ?_⟩
    · unfold findLoanById
      rw [hloans]
      exact firstSuch_id_of_nodup Loan.id hnd hml hid
    · rw [if_neg hnot]

/-- C3 witness: Scenario A — paying 100 on the fresh loan of principal 100
makes the loan `completed`. -/
theorem recordPayment_status_update_witness :
    ∃ loan', findLoanById storePaidLoan 10 = some loan' ∧
      loan'.status = LoanStatus.completed := by
  have h : CreateTransaction .ok storeFreshLoan 1
      { loanId := some 10, amount := 100, remark := none, paymentDate := none } 50 5
      = (.created { id := 50, loanId := 10, amount := 100, remark := none,
                    paymentDate := none, createdAt := 5, updatedAt := 5,
                    deletedAt := none } "bob" 100, storePaidLoan) := by
    norm_num [CreateTransaction, insertedTxn, findLoanOwned, totalPaid, paidContrib,
      fetchTxnJoin, findLoanById, setCompleted, storeFreshLoan, storePaidLoan,
      DbFlags.ok, firstSuch]
  have hloan : findLoanOwned storeFreshLoan 10 1 =
      some { id := 10, userId := 1, borrowerName := "bob", amount := 100,
             status := .active, loanDate := 0, dueDate := none,
             createdAt := 0, updatedAt := 0, deletedAt := none } := by
    norm_num [findLoanOwned, storeFreshLoan, firstSuch]
  obtain ⟨loan', hfind, -, hstat⟩ :=
    recordPayment_status_update (by norm_num [storeFreshLoan]) rfl hloan h
  refine ⟨loan', hfind, ?_⟩
  rw [hstat, if_pos ?_]
  norm_num [totalPaid, storeFreshLoan]

/-- C7. `CreateTransaction` (RecordPayment) is atomic: for any injected
storage failures, either the outcome is not `created` and the store is
exactly the original one (all validation and business failures, and every
storage failure — including a failing status update after the insert —
leave no trace), or the outcome is `created` and the store holds exactly
the inserted payment row plus, when the payoff completed the loan, the
status rewrite. -/
theorem recordPayment_atomicity {f : DbFlags} {s : Store} {uid : Nat}
    {req : TransactionRequest} {newId now : Nat} {res : CreateTxResult} {st : Store}
    (hfresh : ∀ t ∈ s.txns, t.id ≠ newId)
    (h : CreateTransaction f s uid req newId now = (res, st)) :
    (st = s ∧ ∀ t bn la, res ≠ .created t bn la) ∨
    (∃ lid t bn la, req.loanId = some lid ∧ res = .created t bn la ∧
      st.txns = s.txns ++ [insertedTxn req lid newId now] ∧
      (st.loans = s.loans.map (setCompleted lid now) ∨ st.loans = s.loans)) := by
  cases res with
  | created t bn la =>
    right
    obtain ⟨lid, loan, hlid, -, -, -, -, htx, hcase⟩ := CreateTransaction_created h
    exact ⟨lid, t, bn, la, hlid, rfl, htx, hcase.imp And.right And.right⟩
  | badRequest msg =>
    exact Or.inl ⟨CreateTransaction_not_created hfresh h (by simp), by simp⟩
  | internalError msg =>
    exact Or.inl ⟨CreateTransaction_not_created hfresh h (by simp), by simp⟩

/-- C7 witness: with the status-update write forced to fail after the
insert succeeded, the store is unchanged — the inserted row did not
persist. -/
theorem recordPayment_atomicity_witness :
    (CreateTransaction ⟨false, false, true, false⟩ storeFreshLoan 1
      { loanId := some 10, amount := 100, remark := none, paymentDate := none } 50 5).2
      = storeFreshLoan := by
  have h : CreateTransaction ⟨false, false, true, false⟩ storeFreshLoan 1
      { loanId := some 10, amount := 100, remark := none, paymentDate := none } 50 5
      = (.internalError "Failed to update loan status", storeFreshLoan) := by
    norm_num [CreateTransaction, insertedTxn, findLoanOwned, totalPaid, paidContrib,
      storeFreshLoan, firstSuch]
  rcases recordPayment_atomicity (by norm_num [storeFreshLoan]) h with
    ⟨hst, -⟩ | ⟨lid, t, bn, la, -, hres, -⟩
  · rw [h]
  · exact absurd hres (by simp)

/-- C2. For every `CreateTransaction` (RecordPayment) call with a valid
positive amount on an existing owned live loan, with
`remaining = principal - totalPaid`: if `remaining <= 0` it fails with the
AlreadyPaid message; else if `amount > remaining` it fails with the
ExceedsRemaining message, which contains both the attempted amount and the
remaining debt formatted as currency with two fractional digits; otherwise
(with working storage and a fresh transaction id) it succeeds. -/
theorem recordPayment_business_checks {f : DbFlags} {s : Store} {uid lid : Nat}
    {req : TransactionRequest} {newId now : Nat} {loan : Loan}
    (hreq : req.loanId = some lid)
    (hpos : 0 < req.amount)
    (hloan : findLoanOwned s lid uid = some loan) :
    (loan.amount - totalPaid s lid ≤ 0 →
      CreateTransaction f s uid req newId now
        = (.badRequest "This loan is already fully paid", s)) ∧
    (0 < loan.amount - totalPaid s lid →
      loan.amount - totalPaid s lid < req.amount →
      CreateTransaction f s uid req newId now
        = (.badRequest (exceedsMsg req.amount (loan.amount - totalPaid s lid)), s) ∧
      (fmt2 req.amount).data <:+:
        (exceedsMsg req.amount (loan.amount - totalPaid s lid)).data ∧
      (fmt2 (loan.amount - totalPaid s lid)).data <:+:
        (exceedsMsg req.amount (loan.amount - totalPaid s lid)).data) ∧
    (0 < loan.amount - totalPaid s lid →
      req.amount ≤ loan.amount - totalPaid s lid →
      (∀ t ∈ s.txns, t.id ≠ newId) →
      ∃ t bn la, (CreateTransaction DbFlags.ok s uid req newId now).1
        = .created t bn la) := by
  obtain ⟨hml, hid, -, -⟩ := findLoanOwned_spec hloan
  refine ⟨?_, ?_, ?_⟩
  · intro hle
    unfold CreateTransaction
    rw [hreq]
    dsimp only
    rw [hloan]
    dsimp only
    rw [if_neg (not_le.mpr hpos), if_pos hle]
  · intro hgt hlt
    refine ⟨?_, fmt2_infix_exceedsMsg req.amount (loan.amount - totalPaid s lid)⟩
    unfold CreateTransaction
    rw [hreq]
    dsimp only
    rw [hloan]
    dsimp only
    rw [if_neg (not_le.mpr hpos), if_neg (not_le.mpr hgt), if_pos hlt]
  · intro hgt hle hfresh
    unfold CreateTransaction
    rw [hreq]
    dsimp only
    rw [hloan]
    dsimp only [DbFlags.ok]
    rw [if_neg (not_le.mpr hpos), if_neg (not_le.mpr hgt),
      if_neg (not_lt.mpr hle), if_neg Bool.false_ne_true,
      if_neg Bool.false_ne_true]
    by_cases hfull : totalPaid s lid + req.amount ≥ loan.amount
    · rw [if_pos hfull, if_neg Bool.false_ne_true, if_neg Bool.false_ne_true]
      have hex : ∃ l ∈ s.loans.map (setCompleted lid now), l.id = lid :=
        ⟨setCompleted lid now loan,
          List.mem_map_of_mem (setCompleted lid now) hml,
          by rw [setCompleted_id]; exact hid⟩
      obtain ⟨l', hfb⟩ := firstSuch_id_isSome hex
      rw [fetchTxnJoin_insert hfresh hfb]
      exact ⟨_, _, _, rfl⟩
    · rw [if_neg hfull, if_neg Bool.false_ne_true]
      obtain ⟨l', hfb⟩ := firstSuch_id_isSome ⟨loan, hml, hid⟩
      rw [fetchTxnJoin_insert hfresh hfb]
      exact ⟨_, _, _, rfl⟩

/-- C2 witness: Scenario C — principal 500, paid 300, attempting 300 fails
with ExceedsRemaining naming 300.00 and 200.00. -/
theorem recordPayment_business_checks_witness :
    CreateTransaction DbFlags.ok storePartPaid 1
        { loanId := some 30, amount := 300, remark := none, paymentDate := none } 7 9
      = (.badRequest "Payment amount (฿300.00) exceeds remaining debt (฿200.00)",
         storePartPaid) ∧
    ("300.00").data <:+:
      ("Payment amount (฿300.00) exceeds remaining debt (฿200.00)").data ∧
    ("200.00").data <:+:
      ("Payment amount (฿300.00) exceeds remaining debt (฿200.00)").data := by
  have hloan : findLoanOwned storePartPaid 30 1 =
      some { id := 30, userId := 1, borrowerName := "dana", amount := 500,
             status := .active, loanDate := 0, dueDate := none,
             createdAt := 0, updatedAt := 0, deletedAt := none } := by
    norm_num [findLoanOwned, storePartPaid, firstSuch]
  have harg : Loan.amount { id := 30, userId := 1, borrowerName := "dana",
                            amount := 500, status := LoanStatus.active,
                            loanDate := 0, dueDate := none, createdAt := 0,
                            updatedAt := 0, deletedAt := none }
        - totalPaid storePartPaid 30 = 200 := by
    norm_num [totalPaid, paidContrib, storePartPaid]
  have hf1 : fmt2 ((300:ℚ)) = "300.00" := by
    unfold fmt2
    rw [show round ((300:ℚ) * 100) = 30000 by norm_num]
    decide
  have hf2 : fmt2 ((200:ℚ)) = "200.00" := by
    unfold fmt2
    rw [show round ((200:ℚ) * 100) = 20000 by norm_num]
    decide
  have hmsg : exceedsMsg 300 200
      = "Payment amount (฿300.00) exceeds remaining debt (฿200.00)" := by
    unfold exceedsMsg
    rw [hf1, hf2]
    decide
  obtain ⟨hpair, hinf1, hinf2⟩ :=
    (@recordPayment_business_checks DbFlags.ok storePartPaid 1 30
      ⟨some 30, 300, none, none⟩ 7 9 ⟨30, 1, "dana", 500, .active, 0, none, 0, 0, none⟩
      rfl (by norm_num) hloan).2.1
      (by rw [harg]; norm_num) (by rw [harg]; norm_num)
  rw [harg, hmsg] at hpair hinf1 hinf2
  rw [hf1] at hinf1
  rw [hf2] at hinf2
  exact ⟨hpair, hinf1, hinf2⟩

/-- C4. For every successful `UpdateTransaction` (AmendPayment) whose
request keeps the transaction's loan id, with
`new_total = totalPaidExcl + new_amount`: the loan's status becomes
`completed` when `new_total >= principal`; otherwise a `completed` loan
reverts to `active` and any other status (`active`/`overdue`) is left
unchanged. -/
theorem amendPayment_status_update {f : DbFlags} {s : Store} {uid txid : Nat}
    {req : TransactionRequest} {now : Nat} {t' : Txn} {bn : String} {la : ℚ}
    {s' : Store} {lid : Nat} {t0 : Txn} {loan : Loan}
    (hnd : (s.loans.map Loan.id).Nodup)
    (hreq : req.loanId = some lid)
    (hfound : findTxnOwned s txid uid = some (t0, loan))
    (hkeep : lid = t0.loanId)
    (h : UpdateTransaction f s uid txid req now = (.updated t' bn la, s')) :
    ∃ loan', findLoanById s' loan.id = some loan' ∧ loan'.amount = loan.amount ∧
      loan'.status =
        (if totalPaidExcl s loan.id txid + req.amount ≥ loan.amount then
          LoanStatus.completed
         else if loan.status = .completed then .active else loan.status) := by
  rcases UpdateTransaction_run h with
    ⟨-, hne⟩ | ⟨lid2, t02, loan2, hreq2, -, hfound2, -, -, -, hcase⟩
  · exact absurd rfl (hne t' bn la)
  · rw [hreq] at hreq2
    injection hreq2 with he
    subst he
    rw [hfound] at hfound2
    simp only [Option.some.injEq, Prod.mk.injEq] at hfound2
    obtain ⟨he1, he2⟩ := hfound2
    subst he1
    subst he2
    obtain ⟨-, -, -, hml, hidl, -⟩ := findTxnOwned_spec hfound
    have hloanlid : loan.id = lid := by rw [hidl, ← hkeep]
    rcases hcase with ⟨hfull, hloans⟩ | ⟨hnot, hloans⟩
    · refine ⟨setCompleted lid now loan, ?_, setCompleted_amount lid now loan, ?_⟩
      · unfold findLoanById
        rw [hloans,
          firstSuch_map (setCompleted lid now) _ (fun l => by rw [setCompleted_id])
            s.loans,
          firstSuch_id_of_nodup Loan.id hnd hml rfl]
        rfl
      · rw [if_pos hfull]
        unfold setCompleted
        rw [if_pos hloanlid]
    · refine ⟨revertIfCompleted lid now loan, ?_,
        revertIfCompleted_amount lid now loan, ?_⟩
      · unfold findLoanById
        rw [hloans,
          firstSuch_map (revertIfCompleted lid now) _
            (fun l => by rw [revertIfCompleted_id]) s.loans,
          firstSuch_id_of_nodup Loan.id hnd hml rfl]
        rfl
      · rw [if_neg hnot]
        unfold revertIfCompleted
        by_cases hc : loan.status = .completed
        · rw [if_pos ⟨hloanlid, hc⟩, if_pos hc]
        · rw [if_neg (fun hx => hc hx.2), if_neg hc]

/-- C4 witness: Scenario D — principal 1000, its single transaction of
1000 amended down to 600: the loan reverts from `completed` to `active`. -/
theorem amendPayment_status_update_witness :
    ∃ loan', findLoanById (UpdateTransaction DbFlags.ok storeFullPaidBig 1 2
        { loanId := some 40, amount := 600, remark := none, paymentDate := none } 7).2 40
      = some loan' ∧ loan'.status = LoanStatus.active := by
  have hfound : findTxnOwned storeFullPaidBig 2 1 =
      some ({ id := 2, loanId := 40, amount := 1000, remark := none,
              paymentDate := none, createdAt := 2, updatedAt := 2,
              deletedAt := none },
            { id := 40, userId := 1, borrowerName := "erin", amount := 1000,
              status := .completed, loanDate := 0, dueDate := none,
              createdAt := 0, updatedAt := 2, deletedAt := none }) := by
    norm_num [findTxnOwned, storeFullPaidBig, firstSuch]
  have h : UpdateTransaction DbFlags.ok storeFullPaidBig 1 2
      { loanId := some 40, amount := 600, remark := none, paymentDate := none } 7
      = (.updated { id := 2, loanId := 40, amount := 600, remark := none,
                    paymentDate := none, createdAt := 2, updatedAt := 7,
                    deletedAt := none } "erin" 1000,
         { loans := [{ id := 40, userId := 1, borrowerName := "erin", amount := 1000,
                       status := .active, loanDate := 0, dueDate := none,
                       createdAt := 0, updatedAt := 7, deletedAt := none }],
           txns := [{ id := 2, loanId := 40, amount := 600, remark := none,
                      paymentDate := none, createdAt := 2, updatedAt := 7,
                      deletedAt := none }] }) := by
    norm_num [UpdateTransaction, findTxnOwned, totalPaidExcl, applyTxnUpdate,
      revertIfCompleted, setCompleted, fetchTxnJoin, findLoanById, storeFullPaidBig,
      DbFlags.ok, firstSuch]
  obtain ⟨loan', hfind, -, hstat⟩ :=
    amendPayment_status_update (by norm_num [storeFullPaidBig]) rfl hfound rfl h
  refine ⟨loan', ?_, ?_⟩
  · rw [h]
    simpa using hfind
  · rw [hstat, if_neg ?_, if_pos rfl]
    norm_num [totalPaidExcl, storeFullPaidBig]

/-- C5. For every successful `DeleteTransaction` (RevokePayment): the
transaction row carries the delete timestamp, the loan's non-deleted paid
total drops by exactly this transaction's amount (so the row is excluded
from the ledger's subsequent paid-total computations), and with
`new_total = old_total - amount` the loan's status stays/becomes
`completed` when `new_total >= principal`, else a `completed` loan reverts
to `active` and any other status is unchanged. -/
theorem revokePayment_soft_delete_and_status {f : DbFlags} {s : Store}
    {uid txid now : Nat} {msg : String} {s' : Store} {t0 : Txn} {loan : Loan}
    (hndl : (s.loans.map Loan.id).Nodup)
    (hndt : (s.txns.map Txn.id).Nodup)
    (hfound : findTxnOwned s txid uid = some (t0, loan))
    (h : DeleteTransaction f s uid txid now = (.deleted msg, s')) :
    (∃ t', findTxnById s' txid = some t' ∧ t'.deletedAt = some now) ∧
    totalPaid s' loan.id = totalPaid s loan.id - t0.amount ∧
    ∃ loan', findLoanById s' loan.id = some loan' ∧ loan'.amount = loan.amount ∧
      loan'.status =
        (if totalPaid s loan.id - t0.amount ≥ loan.amount then LoanStatus.completed
         else if loan.status = .completed then .active else loan.status) := by
  rcases DeleteTransaction_run h with ⟨-, hne⟩ | ⟨t02, loan2, hfound2, htx, hcase⟩
  · exact absurd rfl (hne msg)
  · rw [hfound] at hfound2
    simp only [Option.some.injEq, Prod.mk.injEq] at hfound2
    obtain ⟨he1, he2⟩ := hfound2
    subst he1
    subst he2
    obtain ⟨hmt, hidt, hdelt, hml, hidl, -⟩ := findTxnOwned_spec hfound
    refine ⟨⟨markDeleted txid now t0, ?_, ?_⟩, ?_, ?_⟩
    · unfold findTxnById
      rw [htx,
        firstSuch_map (markDeleted txid now) _ (fun t => by rw [markDeleted_id])
          s.txns,
        firstSuch_id_of_nodup Txn.id hndt hmt hidt]
      rfl
    · unfold markDeleted
      rw [if_pos hidt]
    · unfold totalPaid
      rw [htx, totalPaid_markDeleted hndt hmt hidt loan.id]
      have : paidContrib loan.id t0 = t0.amount := by
        unfold paidContrib
        rw [if_pos ⟨hidl.symm, hdelt⟩]
      rw [this]
    · have hloanlid : loan.id = t0.loanId := hidl
      rcases hcase with ⟨hfull, hloans⟩ | ⟨hnot, hloans⟩
      · refine ⟨setCompleted t0.loanId now loan, ?_,
          setCompleted_amount t0.loanId now loan, ?_⟩
        · unfold findLoanById
          rw [hloans,
            firstSuch_map (setCompleted t0.loanId now) _
              (fun l => by rw [setCompleted_id]) s.loans,
            firstSuch_id_of_nodup Loan.id hndl hml rfl]
          rfl
        · rw [if_pos hfull]
          unfold setCompleted
          rw [if_pos hloanlid]
      · refine ⟨revertIfCompleted t0.loanId now loan, ?_,
          revertIfCompleted_amount t0.loanId now loan, ?_⟩
        · unfold findLoanById
          rw [hloans,
            firstSuch_map (revertIfCompleted t0.loanId now) _
              (fun l => by rw [revertIfCompleted_id]) s.loans,
            firstSuch_id_of_nodup Loan.id hndl hml rfl]
          rfl
        · rw [if_neg hnot]
          unfold revertIfCompleted
          by_cases hc : loan.status = .completed
          · rw [if_pos ⟨hloanlid, hc⟩, if_pos hc]
          · rw [if_neg (fun hx => hc hx.2), if_neg hc]

/-- C5 witness: Scenario E — principal 1000 with payments 600 and 400;
revoking the 400 payment drops the paid total to 600 and reverts the loan
to `active`. -/
theorem revokePayment_witness :
    totalPaid (DeleteTransaction DbFlags.ok storeTwoPayments 1 4 9).2 60
      = totalPaid storeTwoPayments 60 - 400 ∧
    ∃ loan', findLoanById (DeleteTransaction DbFlags.ok storeTwoPayments 1 4 9).2 60
      = some loan' ∧ loan'.status = LoanStatus.active := by
  have hfound : findTxnOwned storeTwoPayments 4 1 =
      some ({ id := 4, loanId := 60, amount := 400, remark := none,
              paymentDate := none, createdAt := 4, updatedAt := 4,
              deletedAt := none },
            { id := 60, userId := 1, borrowerName := "gabe", amount := 1000,
              status := .completed, loanDate := 0, dueDate := none,
              createdAt := 0, updatedAt := 4, deletedAt := none }) := by
    norm_num [findTxnOwned, storeTwoPayments, firstSuch]
  have h : DeleteTransaction DbFlags.ok storeTwoPayments 1 4 9
      = (.deleted "Transaction deleted successfully",
         { loans := [{ id := 60, userId := 1, borrowerName := "gabe", amount := 1000,
                       status := .active, loanDate := 0, dueDate := none,
                       createdAt := 0, updatedAt := 9, deletedAt := none }],
           txns := [{ id := 3, loanId := 60, amount := 600, remark := none,
                      paymentDate := none, createdAt := 3, updatedAt := 3,
                      deletedAt := none },
                    { id := 4, loanId := 60, amount := 400, remark := none,
                      paymentDate := none, createdAt := 4, updatedAt := 4,
                      deletedAt := some 9 }] }) := by
    norm_num [DeleteTransaction, findTxnOwned, totalPaid, paidContrib, markDeleted,
      setCompleted, revertIfCompleted, storeTwoPayments, DbFlags.ok, firstSuch,
      Option.some_ne_none]
  obtain ⟨-, htp, loan', hfind, -, hstat⟩ :=
    revokePayment_soft_delete_and_status (by norm_num [storeTwoPayments])
      (by norm_num [storeTwoPayments]) hfound h
  refine ⟨?_, loan', ?_, ?_⟩
  · rw [h]
    simpa using htp
  · rw [h]
    simpa using hfind
  · rw [hstat, if_neg ?_, if_pos rfl]
    norm_num [totalPaid, paidContrib, storeTwoPayments]

/-- C9. `DeleteLoan` (RemoveLoan) on an existing owned loan is
all-or-nothing: any failing run leaves the store unchanged (so the loan is
never deleted while live transactions referencing it remain), and a
successful run removes the loan and every transaction referencing it, so
neither is visible to subsequent reads (`GetLoan` answers not-found). -/
theorem removeLoan_cascade_atomicity {f : DbFlags} {s : Store} {uid lid : Nat}
    {loan : Loan} {res : LoanOpResult} {st : Store}
    (hnd : (s.loans.map Loan.id).Nodup)
    (hfound : findLoanOfUser s lid uid = some loan)
    (h : DeleteLoan f s uid lid = (res, st)) :
    ((∀ msg, res ≠ .ok msg) → st = s) ∧
    (∀ msg, res = .ok msg →
      (∀ l' ∈ st.loans, l'.id ≠ lid) ∧ (∀ t' ∈ st.txns, t'.loanId ≠ lid) ∧
      GetLoan st uid lid = .notFound "Loan not found") := by
  obtain ⟨hml, hidl, hul⟩ := findLoanOfUser_spec hfound
  unfold DeleteLoan at h
  rw [hfound] at h
  dsimp only at h
  split at h
  · injection h with h1 h2
    exact ⟨fun _ => h2.symm, fun msg hres => absurd (h1.trans hres) (by simp)⟩
  · split at h
    · injection h with h1 h2
      exact ⟨fun _ => h2.symm, fun msg hres => absurd (h1.trans hres) (by simp)⟩
    · split at h
      · injection h with h1 h2
        exact ⟨fun _ => h2.symm, fun msg hres => absurd (h1.trans hres) (by simp)⟩
      · split at h
        · injection h with h1 h2
          exact ⟨fun _ => h2.symm, fun msg hres => absurd (h1.trans hres) (by simp)⟩
        · injection h with h1 h2
          constructor
          · intro hne
            exact absurd h1.symm (hne "Loan deleted successfully")
          · intro msg hres
            have hloans : ∀ l' ∈ st.loans, l'.id ≠ lid := by
              intro l' hl' hid
              rw [← h2] at hl'
              obtain ⟨hmem, hnp⟩ := mem_filterP.mp hl'
              have : l' = loan :=
                List.inj_on_of_nodup_map hnd hmem hml (by rw [hid, hidl])
              subst this
              exact hnp ⟨hid, hul⟩
            refine ⟨hloans, ?_, ?_⟩
            · intro t' ht'
              rw [← h2] at ht'
              exact (mem_filterP.mp ht').2
            · unfold GetLoan
              have hnone : findLoanOfUser st lid uid = none := by
                unfold findLoanOfUser
                rw [firstSuch_eq_none]
                intro l hl hc
                exact hloans l hl hc.1
              rw [hnone]

/-- C9 witness: Scenario F — deleting loan 10 (which has a live
transaction) removes both; a subsequent `GetLoan` answers not-found. -/
theorem removeLoan_cascade_atomicity_witness :
    GetLoan (DeleteLoan DbFlags.ok storeTwoUsers 1 10).2 1 10
      = .notFound "Loan not found" := by
  have hfound : findLoanOfUser storeTwoUsers 10 1 =
      some { id := 10, userId := 1, borrowerName := "bob", amount := 100,
             status := .active, loanDate := 0, dueDate := none,
             createdAt := 0, updatedAt := 0, deletedAt := none } := by
    norm_num [findLoanOfUser, storeTwoUsers, firstSuch]
  have h : DeleteLoan DbFlags.ok storeTwoUsers 1 10
      = (.ok "Loan deleted successfully",
         { loans := [{ id := 20, userId := 2, borrowerName := "carol", amount := 500,
                       status := .active, loanDate := 0, dueDate := none,
                       createdAt := 0, updatedAt := 0, deletedAt := none }],
           txns := [] }) := by
    norm_num [DeleteLoan, findLoanOfUser, storeTwoUsers, DbFlags.ok, firstSuch, filterP]
  obtain ⟨-, hsucc⟩ :=
    removeLoan_cascade_atomicity (by norm_num [storeTwoUsers]) hfound h
  obtain ⟨-, -, hget⟩ := hsucc "Loan deleted successfully" rfl
  rw [h]
  exact hget

/-- C1 (amended). Every committed ledger operation — RecordPayment,
RevokePayment, and AmendPayment when the request keeps the transaction's
current loan id — preserves the invariant that each loan's non-deleted
paid total is at most its principal, on a well-formed store (unique
primary keys, positive stored amounts). Loan edits are excluded: the
counterexample shows `UpdateLoan` can break the invariant. -/
theorem ledgerOps_preserve_paid_le_principal (f : DbFlags) (op : LedgerOp)
    (s : Store) (hwf : WfStore s) (hinv : LedgerInv s)
    (hkeep : keepsLoan op s) : LedgerInv (applyLedgerOp f op s) := by
  cases op with
  | record uid req newId now => exact CreateTransaction_preserves hwf hinv
  | amend uid txid req now => exact UpdateTransaction_preserves hwf hinv hkeep
  | revoke uid txid now => exact DeleteTransaction_preserves hwf hinv

/-- C1 (amended) witness: recording a full payoff of 100 on the fresh
loan of principal 100 preserves the invariant. -/
theorem ledgerOps_preserve_paid_le_principal_witness :
    WfStore storeFreshLoan ∧
    LedgerInv (applyLedgerOp DbFlags.ok
      (.record 1 ⟨some 10, 100, none, none⟩ 50 5) storeFreshLoan) := by
  have hwf : WfStore storeFreshLoan := by
    norm_num [WfStore, storeFreshLoan]
  refine ⟨hwf, ledgerOps_preserve_paid_le_principal _ _ _ hwf ?_ ?_⟩
  · intro l hl
    norm_num [storeFreshLoan] at hl
    rw [hl]
    norm_num [totalPaid, paidContrib, storeFreshLoan]
  · exact trivial

end LoanMoney
